import Mathlib

/-!
Verification of the seamless noise field generators of the
`backrooms_power_crawl` texture scripts.

Shallow embedding of
`_claude_scripts/textures/dark_sky/generate.py` (function `toroidal_noise`)
and `_claude_scripts/textures/snow_dirt/generate.py` (function
`generate_tileable_noise`).  Python floats are modelled as real numbers.
The external coherent-noise primitives (`noise.pnoise2` with `octaves=1`,
and `opensimplex.OpenSimplex.noise4`) are not part of the repository and
are modelled as opaque function parameters.  The Python `ZeroDivisionError`
on the final `value / max_value` of `toroidal_noise` is modelled by an
`Option` result: `none` exactly when `max_value = 0`.
-/

set_option maxRecDepth 10000

namespace BackroomsNoise

/-- Python `int(r)` applied to a float: truncation toward zero. -/
noncomputable def pyInt (r : ℝ) : ℤ := if 0 ≤ r then ⌊r⌋ else ⌈r⌉

/-- Texture side length: the module-level constant `SIZE = 128` of
`snow_dirt/generate.py` (and of `dark_sky/generate.py`). -/
def SIZE : ℕ := 128

/-- The `pnoise2` call in the loop body of `toroidal_noise`
(`dark_sky/generate.py` lines 56-63), as a function of the current
`frequency`.  The source hoists `nx, ny, angle_x, angle_y, radius, dx, dy,
dz, dw` out of the loop; they do not change between iterations so inlining
them here is exact.  `dw = radius * sin(angle_y)` is computed by the source
but never used, hence it does not appear.  The first argument of the
primitive is the Python argument list `(x, y, persistence, lacunarity,
base)` of `pnoise2` (with its `octaves=1` fixed). -/
noncomputable def toroidal_sample (pnoise2 : ℝ → ℝ → ℝ → ℝ → ℤ → ℝ)
    (x y size persistence lacunarity : ℝ) (frequency : ℝ) : ℝ :=
  let nx := x / size
  let ny := y / size
  let angle_x := 2 * Real.pi * nx
  let angle_y := 2 * Real.pi * ny
  let radius := size / (2 * Real.pi)
  let dx := radius * Real.cos angle_x
  let dy := radius * Real.sin angle_x
  let dz := radius * Real.cos angle_y
  let base : ℤ := pyInt (dz * 1000) % 256
  pnoise2 (dx * frequency / size) (dy * frequency / size)
    persistence lacunarity base

/-- One iteration of the octave loop of `toroidal_noise`
(`dark_sky/generate.py` lines 54-69) on the state
`(value, amplitude, frequency, max_value)`:
`value += sample(frequency) * amplitude; max_value += amplitude;
amplitude *= persistence; frequency *= lacunarity`. -/
noncomputable def octaveStep (sample : ℝ → ℝ) (persistence lacunarity : ℝ)
    (st : ℝ × ℝ × ℝ × ℝ) : ℝ × ℝ × ℝ × ℝ :=
  (st.1 + sample st.2.2.1 * st.2.1, st.2.1 * persistence,
    st.2.2.1 * lacunarity, st.2.2.2 + st.2.1)

/-- The octave loop of `toroidal_noise` run `octaves` times from the
initial state `value = 0.0, amplitude = 1.0, frequency = scale,
max_value = 0.0` (`dark_sky/generate.py` lines 49-52). -/
noncomputable def octaveState (sample : ℝ → ℝ) (persistence lacunarity scale : ℝ)
    (octaves : ℕ) : ℝ × ℝ × ℝ × ℝ :=
  (octaveStep sample persistence lacunarity)^[octaves] (0, 1, scale, 0)

/-- The function `toroidal_noise(x, y, size, scale, octaves, persistence, lacunarity)`
of `dark_sky/generate.py` (lines 23-72; defaults there are `octaves=4,
persistence=0.5, lacunarity=2.0`).  Returns `none` when the final
`value / max_value` would divide by zero (Python raises
`ZeroDivisionError`), `some (value / max_value)` otherwise. -/
noncomputable def toroidal_noise (pnoise2 : ℝ → ℝ → ℝ → ℝ → ℤ → ℝ)
    (x y size scale : ℝ) (octaves : ℕ) (persistence lacunarity : ℝ) :
    Option ℝ :=
  let st := octaveState (toroidal_sample pnoise2 x y size persistence lacunarity)
    persistence lacunarity scale octaves
  if st.2.2.2 = 0 then none else some (st.1 / st.2.2.2)

/-- The function `generate_tileable_noise(noise_gen, scale, octaves)` of
`snow_dirt/generate.py` (lines 21-49), as the value of the output cell
`noise[y, x]`.  The source accumulates `noise[y, x] += noise4(...) * amp`
over `octave in range(octaves)` with `freq = 2 ** octave` and
`amp = 1.0 / (2 ** octave)` recomputed from the octave index, so the cell
value is exactly this sum. -/
noncomputable def generate_tileable_noise (noise_gen : ℝ → ℝ → ℝ → ℝ → ℝ)
    (scale : ℝ) (octaves : ℕ) (x y : ℤ) : ℝ :=
  ∑ octave in Finset.range octaves,
    let freq : ℝ := 2 ^ octave
    let amp : ℝ := 1 / 2 ^ octave
    let nx : ℝ := (x : ℝ) / SIZE
    let ny : ℝ := (y : ℝ) / SIZE
    let s := Real.cos (nx * 2 * Real.pi)
    let t := Real.sin (nx * 2 * Real.pi)
    let u := Real.cos (ny * 2 * Real.pi)
    let v := Real.sin (ny * 2 * Real.pi)
    noise_gen (s * scale * freq) (t * scale * freq) (u * scale * freq)
      (v * scale * freq) * amp

/-- The loop state of `toroidal_noise` after `n` octaves in closed form:
`value` is the weighted sum of samples, `amplitude = persistence ^ n`,
`frequency = scale * lacunarity ^ n`, and `max_value` is the geometric
amplitude sum. -/
lemma octaveState_eq (sample : ℝ → ℝ) (p l scale : ℝ) (n : ℕ) :
    octaveState sample p l scale n =
      (∑ i in Finset.range n, sample (scale * l ^ i) * p ^ i, p ^ n,
        scale * l ^ n, ∑ i in Finset.range n, p ^ i) := by
  induction n with
  | zero => simp [octaveState]
  | succ n ih =>
    have : octaveState sample p l scale (n + 1) =
        octaveStep sample p l (octaveState sample p l scale n) := by
      simp [octaveState, Function.iterate_succ_apply']
    rw [this, ih]
    simp only [octaveStep, Finset.sum_range_succ, pow_succ, Prod.mk.injEq]
    exact ⟨by ring_nf, by ring_nf, by ring_nf, by ring_nf⟩

/-- Function `toroidal_noise` in closed form: the weighted sample sum over the
geometric amplitude sum, guarded by the division-by-zero check. -/
lemma toroidal_noise_closed (pnoise2 : ℝ → ℝ → ℝ → ℝ → ℤ → ℝ)
    (x y size scale : ℝ) (O : ℕ) (p l : ℝ) :
    toroidal_noise pnoise2 x y size scale O p l =
      if (∑ i in Finset.range O, p ^ i) = 0 then none
      else some ((∑ i in Finset.range O,
          toroidal_sample pnoise2 x y size p l (scale * l ^ i) * p ^ i) /
        ∑ i in Finset.range O, p ^ i) := by
  simp [toroidal_noise, octaveState_eq]

/-- With at least one octave and nonnegative persistence, the accumulated
`max_value` of the octave loop is at least `1` (its first summand). -/
lemma one_le_amp_sum {p : ℝ} (hp : 0 ≤ p) {O : ℕ} (hO : 1 ≤ O) :
    1 ≤ ∑ i in Finset.range O, p ^ i := by
  have h0 : (0 : ℕ) ∈ Finset.range O := Finset.mem_range.mpr hO
  have := Finset.single_le_sum (f := fun i => p ^ i)
    (fun i _ => pow_nonneg hp i) h0
  simpa using this

/-- Function `toroidal_noise` depends on the pixel coordinates only through the
sampling function of the octave loop. -/
lemma toroidal_noise_congr (pnoise2 : ℝ → ℝ → ℝ → ℝ → ℤ → ℝ)
    {x x2 y y2 : ℝ} (size scale : ℝ) (O : ℕ) (p l : ℝ)
    (h : toroidal_sample pnoise2 x2 y2 size p l =
      toroidal_sample pnoise2 x y size p l) :
    toroidal_noise pnoise2 x2 y2 size scale O p l =
      toroidal_noise pnoise2 x y size scale O p l := by
  simp only [toroidal_noise, h]

/-- The sampling function of `toroidal_noise` depends on `(x, y)` only
through `cos angle_x`, `sin angle_x` and `cos angle_y` (the fourth torus
coordinate `dw = radius * sin angle_y` is never used by the source). -/
lemma toroidal_sample_congr (pnoise2 : ℝ → ℝ → ℝ → ℝ → ℤ → ℝ)
    {x x2 y y2 : ℝ} (size p l : ℝ)
    (hc : Real.cos (2 * Real.pi * (x2 / size)) =
      Real.cos (2 * Real.pi * (x / size)))
    (hs : Real.sin (2 * Real.pi * (x2 / size)) =
      Real.sin (2 * Real.pi * (x / size)))
    (hcy : Real.cos (2 * Real.pi * (y2 / size)) =
      Real.cos (2 * Real.pi * (y / size))) :
    toroidal_sample pnoise2 x2 y2 size p l =
      toroidal_sample pnoise2 x y size p l := by
  funext frequency
  simp only [toroidal_sample]
  rw [hc, hs, hcy]

/-- Function `generate_tileable_noise` depends on `(x, y)` only through the four
torus coordinates `cos/sin` of the two angles. -/
lemma generate_tileable_congr (noise_gen : ℝ → ℝ → ℝ → ℝ → ℝ)
    (scale : ℝ) (O : ℕ) {x x2 y y2 : ℤ}
    (hc : Real.cos ((x2 : ℝ) / SIZE * 2 * Real.pi) =
      Real.cos ((x : ℝ) / SIZE * 2 * Real.pi))
    (hs : Real.sin ((x2 : ℝ) / SIZE * 2 * Real.pi) =
      Real.sin ((x : ℝ) / SIZE * 2 * Real.pi))
    (hcy : Real.cos ((y2 : ℝ) / SIZE * 2 * Real.pi) =
      Real.cos ((y : ℝ) / SIZE * 2 * Real.pi))
    (hsy : Real.sin ((y2 : ℝ) / SIZE * 2 * Real.pi) =
      Real.sin ((y : ℝ) / SIZE * 2 * Real.pi)) :
    generate_tileable_noise noise_gen scale O x2 y2 =
      generate_tileable_noise noise_gen scale O x y := by
  simp only [generate_tileable_noise]
  exact Finset.sum_congr rfl fun o _ => by rw [hc, hs, hcy, hsy]

/-- Each octave layer of `generate_tileable_noise` is the single-octave
field at scale `scale * 2 ^ o`, weighted by `(1 / 2) ^ o`. -/
lemma generate_tileable_layers (noise_gen : ℝ → ℝ → ℝ → ℝ → ℝ)
    (scale : ℝ) (O : ℕ) (x y : ℤ) :
    generate_tileable_noise noise_gen scale O x y =
      ∑ o in Finset.range O,
        generate_tileable_noise noise_gen (scale * 2 ^ o) 1 x y *
          (1 / 2 : ℝ) ^ o := by
  simp only [generate_tileable_noise, Finset.sum_range_one]
  refine Finset.sum_congr rfl fun o _ => ?_
  rw [pow_zero, one_div_pow]
  ring_nf

/-- The index set of a `SIZE x SIZE` texture grid. -/
def gridIdx : Finset (ℕ × ℕ) := Finset.range SIZE ×ˢ Finset.range SIZE

lemma gridIdx_nonempty : gridIdx.Nonempty :=
  Finset.Nonempty.product ⟨0, Finset.mem_range.mpr (by norm_num [SIZE])⟩
    ⟨0, Finset.mem_range.mpr (by norm_num [SIZE])⟩

lemma mem_gridIdx (a b : ℕ) : (a, b) ∈ gridIdx ↔ a < SIZE ∧ b < SIZE := by
  simp [gridIdx, Finset.mem_product]

/-- The value `grid.min()` of a `SIZE x SIZE` numpy array viewed as a function of
`(x, y)`. -/
noncomputable def gridMin (g : ℕ → ℕ → ℝ) : ℝ :=
  gridIdx.inf' gridIdx_nonempty fun q => g q.1 q.2

/-- The value `grid.max()` of a `SIZE x SIZE` numpy array. -/
noncomputable def gridMax (g : ℕ → ℕ → ℝ) : ℝ :=
  gridIdx.sup' gridIdx_nonempty fun q => g q.1 q.2

/-- The min/max rescaling `(grid - grid.min()) / (grid.max() - grid.min())`
applied to each noise layer of `dark_sky/generate.py` (lines 89, 99, 109,
116). -/
noncomputable def rescaleGrid (g : ℕ → ℕ → ℝ) (x y : ℕ) : ℝ :=
  (g x y - gridMin g) / (gridMax g - gridMin g)

lemma gridMin_le (g : ℕ → ℕ → ℝ) {a b : ℕ} (h : (a, b) ∈ gridIdx) :
    gridMin g ≤ g a b := by
  rw [gridMin, Finset.inf'_le_iff]
  exact ⟨(a, b), h, le_rfl⟩

lemma le_gridMax (g : ℕ → ℕ → ℝ) {a b : ℕ} (h : (a, b) ∈ gridIdx) :
    g a b ≤ gridMax g := by
  rw [gridMax, Finset.le_sup'_iff]
  exact ⟨(a, b), h, le_rfl⟩

/-- The base cloud layer of `dark_sky/generate.py` (line 86):
`toroidal_noise(x, y, SIZE, scale=2.0, octaves=3)` with the default
`persistence=0.5, lacunarity=2.0`.  With these arguments the final
division of `toroidal_noise` is defined (the amplitude sum is `7/4`), so
`getD 0` extracts the value actually stored in the array. -/
noncomputable def darkSkyBase (pnoise2 : ℝ → ℝ → ℝ → ℝ → ℤ → ℝ)
    (x y : ℕ) : ℝ :=
  (toroidal_noise pnoise2 x y SIZE 2 3 (1 / 2) 2).getD 0

/-- The normalized base layer of `dark_sky/generate.py` (line 89). -/
noncomputable def darkSkyNormalized (pnoise2 : ℝ → ℝ → ℝ → ℝ → ℤ → ℝ) :
    ℕ → ℕ → ℝ :=
  rescaleGrid (darkSkyBase pnoise2)

/-- A coherent-noise primitive bounded in `[-1, 1]`, the documented range
of `opensimplex.noise4`. -/
def boundedNoise (f : ℝ → ℝ → ℝ → ℝ → ℝ) : Prop :=
  ∀ a b c d : ℝ, -1 ≤ f a b c d ∧ f a b c d ≤ 1

/-- The identically-zero stand-in for the `pnoise2` primitive, used to
instantiate universally quantified statements at a concrete input. -/
def zeroNoise2 : ℝ → ℝ → ℝ → ℝ → ℤ → ℝ := fun _ _ _ _ _ => 0

/-- The identically-one stand-in for the `noise4` primitive; it is bounded
in `[-1, 1]`. -/
def oneNoise4 : ℝ → ℝ → ℝ → ℝ → ℝ := fun _ _ _ _ => 1

/-- The identically-zero stand-in for the `noise4` primitive. -/
def zeroNoise4 : ℝ → ℝ → ℝ → ℝ → ℝ := fun _ _ _ _ => 0

/-- A concrete non-constant grid, used to instantiate grid statements. -/
def rampGrid : ℕ → ℕ → ℝ := fun a _ => (a : ℝ)

lemma cos_angle_shift {size : ℝ} (h : size ≠ 0) (x : ℝ) :
    Real.cos (2 * Real.pi * ((x + size) / size)) =
      Real.cos (2 * Real.pi * (x / size)) := by
  have e : 2 * Real.pi * ((x + size) / size) =
      2 * Real.pi * (x / size) + 2 * Real.pi := by
    field_simp
    ring
  rw [e, Real.cos_add_two_pi]

lemma sin_angle_shift {size : ℝ} (h : size ≠ 0) (x : ℝ) :
    Real.sin (2 * Real.pi * ((x + size) / size)) =
      Real.sin (2 * Real.pi * (x / size)) := by
  have e : 2 * Real.pi * ((x + size) / size) =
      2 * Real.pi * (x / size) + 2 * Real.pi := by
    field_simp
    ring
  rw [e, Real.sin_add_two_pi]

lemma cos_angle_mirror {size : ℝ} (h : size ≠ 0) (y : ℝ) :
    Real.cos (2 * Real.pi * ((size - y) / size)) =
      Real.cos (2 * Real.pi * (y / size)) := by
  have e : 2 * Real.pi * ((size - y) / size) =
      2 * Real.pi - 2 * Real.pi * (y / size) := by
    field_simp
    ring
  rw [e, Real.cos_two_pi_sub]

lemma size_cast : (SIZE : ℝ) = 128 := by norm_num [SIZE]

lemma cos_angle_shift_int (x : ℤ) :
    Real.cos (((x + (SIZE : ℤ) : ℤ) : ℝ) / SIZE * 2 * Real.pi) =
      Real.cos ((x : ℝ) / SIZE * 2 * Real.pi) := by
  have e : ((x + (SIZE : ℤ) : ℤ) : ℝ) / SIZE * 2 * Real.pi =
      (x : ℝ) / SIZE * 2 * Real.pi + 2 * Real.pi := by
    rw [size_cast]
    push_cast [SIZE]
    field_simp
    ring
  rw [e, Real.cos_add_two_pi]

lemma sin_angle_shift_int (x : ℤ) :
    Real.sin (((x + (SIZE : ℤ) : ℤ) : ℝ) / SIZE * 2 * Real.pi) =
      Real.sin ((x : ℝ) / SIZE * 2 * Real.pi) := by
  have e : ((x + (SIZE : ℤ) : ℤ) : ℝ) / SIZE * 2 * Real.pi =
      (x : ℝ) / SIZE * 2 * Real.pi + 2 * Real.pi := by
    rw [size_cast]
    push_cast [SIZE]
    field_simp
    ring
  rw [e, Real.sin_add_two_pi]

/-- Claim C1: for every valid configuration (positive size, at least one
octave) the generated noise field is periodic with period equal to the
output size in both axes: `toroidal_noise` agrees at `x` and `x + size`
and at `y` and `y + size`, and `generate_tileable_noise` agrees at `x` and
`x + SIZE` and at `y` and `y + SIZE`. -/
theorem C1_periodic (pnoise2 : ℝ → ℝ → ℝ → ℝ → ℤ → ℝ)
    (noise_gen : ℝ → ℝ → ℝ → ℝ → ℝ)
    (x y size scale persistence lacunarity s : ℝ) (a b : ℤ)
    (octaves O : ℕ) (hsize : 0 < size) (_hoct : 1 ≤ octaves) :
    (toroidal_noise pnoise2 (x + size) y size scale octaves persistence
        lacunarity =
      toroidal_noise pnoise2 x y size scale octaves persistence lacunarity ∧
     toroidal_noise pnoise2 x (y + size) size scale octaves persistence
        lacunarity =
      toroidal_noise pnoise2 x y size scale octaves persistence lacunarity) ∧
    (generate_tileable_noise noise_gen s O (a + (SIZE : ℤ)) b =
      generate_tileable_noise noise_gen s O a b ∧
     generate_tileable_noise noise_gen s O a (b + (SIZE : ℤ)) =
      generate_tileable_noise noise_gen s O a b) := by
  have hne : size ≠ 0 := ne_of_gt hsize
  refine ⟨⟨?_, ?_⟩, ?_, ?_⟩
  · exact toroidal_noise_congr pnoise2 size scale octaves persistence
      lacunarity (toroidal_sample_congr pnoise2 size persistence lacunarity
        (cos_angle_shift hne x) (sin_angle_shift hne x) rfl)
  · exact toroidal_noise_congr pnoise2 size scale octaves persistence
      lacunarity (toroidal_sample_congr pnoise2 size persistence lacunarity
        rfl rfl (cos_angle_shift hne y))
  · exact generate_tileable_congr noise_gen s O (cos_angle_shift_int a)
      (sin_angle_shift_int a) rfl rfl
  · exact generate_tileable_congr noise_gen s O rfl rfl
      (cos_angle_shift_int b) (sin_angle_shift_int b)

/-- Concrete instance of C1: size `4`, two octaves, zero `pnoise2`
primitive; the field repeats after one period in each axis. -/
theorem C1_periodic_witness :
    ((0 : ℝ) < 4 ∧ 1 ≤ 2) ∧
    ((toroidal_noise zeroNoise2 (3 + 4) 5 4 2 2 (1 / 2) 2 =
        toroidal_noise zeroNoise2 3 5 4 2 2 (1 / 2) 2 ∧
      toroidal_noise zeroNoise2 3 (5 + 4) 4 2 2 (1 / 2) 2 =
        toroidal_noise zeroNoise2 3 5 4 2 2 (1 / 2) 2) ∧
     (generate_tileable_noise oneNoise4 1 2 (7 + (SIZE : ℤ)) 9 =
        generate_tileable_noise oneNoise4 1 2 7 9 ∧
      generate_tileable_noise oneNoise4 1 2 7 (9 + (SIZE : ℤ)) =
        generate_tileable_noise oneNoise4 1 2 7 9)) :=
  ⟨⟨by norm_num, by norm_num⟩,
    C1_periodic zeroNoise2 oneNoise4 3 5 4 2 (1 / 2) 2 1 7 9 2 2
      (by norm_num) (by norm_num)⟩

/-- Claim C8 (implicit): the dark_sky field is mirror-symmetric about the
horizontal midline, because `y` only enters through
`dz = radius * cos(angle_y)` (and `dw` is computed but never used), and
cosine is even around `2 * pi`: `toroidal_noise` agrees at `y` and
`size - y`. -/
theorem C8_mirror (pnoise2 : ℝ → ℝ → ℝ → ℝ → ℤ → ℝ)
    (x y size scale persistence lacunarity : ℝ) (octaves : ℕ)
    (h : size ≠ 0) :
    toroidal_noise pnoise2 x (size - y) size scale octaves persistence
        lacunarity =
      toroidal_noise pnoise2 x y size scale octaves persistence lacunarity :=
  toroidal_noise_congr pnoise2 size scale octaves persistence lacunarity
    (toroidal_sample_congr pnoise2 size persistence lacunarity rfl rfl
      (cos_angle_mirror h y))

/-- Concrete instance of C8 at size `4`, `y = 1`. -/
theorem C8_mirror_witness :
    (4 : ℝ) ≠ 0 ∧
    toroidal_noise zeroNoise2 3 (4 - 1) 4 2 2 (1 / 2) 2 =
      toroidal_noise zeroNoise2 3 1 4 2 2 (1 / 2) 2 :=
  ⟨by norm_num, C8_mirror zeroNoise2 3 1 4 2 (1 / 2) 2 2 (by norm_num)⟩

/-- Claim C5: the generators are deterministic and history-free: two
invocations with identical arguments (including the same opaque noise
primitive, which carries the seed) return exactly equal values.  In the
embedding both generators are pure functions of their argument lists, so
equal argument tuples give equal results. -/
theorem C5_deterministic (p q : ℝ → ℝ → ℝ → ℝ → ℤ → ℝ)
    (g h : ℝ → ℝ → ℝ → ℝ → ℝ)
    (x x2 y y2 size size2 scale scale2 pers pers2 lac lac2 s s2 : ℝ)
    (O O2 N N2 : ℕ) (a a2 b b2 : ℤ)
    (h1 : (p, x, y, size, scale, O, pers, lac) =
      (q, x2, y2, size2, scale2, O2, pers2, lac2))
    (h2 : (g, s, N, a, b) = (h, s2, N2, a2, b2)) :
    toroidal_noise p x y size scale O pers lac =
      toroidal_noise q x2 y2 size2 scale2 O2 pers2 lac2 ∧
    generate_tileable_noise g s N a b =
      generate_tileable_noise h s2 N2 a2 b2 := by
  simp only [Prod.mk.injEq] at h1 h2
  obtain ⟨rfl, rfl, rfl, rfl, rfl, rfl, rfl, rfl⟩ := h1
  obtain ⟨rfl, rfl, rfl, rfl, rfl⟩ := h2
  exact ⟨rfl, rfl⟩

/-- Concrete instance of C5: a repeated invocation with the same concrete
arguments yields the same value. -/
theorem C5_deterministic_witness :
    ((zeroNoise2, (1 : ℝ), (2 : ℝ), (3 : ℝ), (4 : ℝ), (2 : ℕ), (1 / 2 : ℝ),
        (2 : ℝ)) =
      (zeroNoise2, (1 : ℝ), (2 : ℝ), (3 : ℝ), (4 : ℝ), (2 : ℕ), (1 / 2 : ℝ),
        (2 : ℝ)) ∧
     (oneNoise4, (1 : ℝ), (2 : ℕ), (5 : ℤ), (6 : ℤ)) =
      (oneNoise4, (1 : ℝ), (2 : ℕ), (5 : ℤ), (6 : ℤ))) ∧
    (toroidal_noise zeroNoise2 1 2 3 4 2 (1 / 2) 2 =
      toroidal_noise zeroNoise2 1 2 3 4 2 (1 / 2) 2 ∧
     generate_tileable_noise oneNoise4 1 2 5 6 =
      generate_tileable_noise oneNoise4 1 2 5 6) :=
  ⟨⟨rfl, rfl⟩,
    C5_deterministic zeroNoise2 zeroNoise2 oneNoise4 oneNoise4 1 1 2 2 3 3 4 4
      (1 / 2) (1 / 2) 2 2 1 1 2 2 2 2 5 5 6 6 rfl rfl⟩

/-- Claim C3 counterexample: `generate_tileable_noise` with `octaves = 0`
does not fail; its loop body never runs and it returns the all-zero field
(here: the cell value `0`), contradicting the claim that both generators
raise a configuration error for octave count zero. -/
theorem C3_counterexample :
    generate_tileable_noise oneNoise4 1 0 0 0 = 0 := by
  simp [generate_tileable_noise]

/-- Claim C3 as amended: with `octaves = 0`, `toroidal_noise` fails (its
final `value / max_value` divides zero by zero, a Python
`ZeroDivisionError`, modelled as `none`), while `generate_tileable_noise`
silently returns the all-zero field instead of raising. -/
theorem C3_octaves_zero (pnoise2 : ℝ → ℝ → ℝ → ℝ → ℤ → ℝ)
    (noise_gen : ℝ → ℝ → ℝ → ℝ → ℝ)
    (x y size scale persistence lacunarity s : ℝ) (a b : ℤ) :
    toroidal_noise pnoise2 x y size scale 0 persistence lacunarity = none ∧
    generate_tileable_noise noise_gen s 0 a b = 0 := by
  constructor
  · simp [toroidal_noise_closed]
  · simp [generate_tileable_noise]

/-- Claim C4 counterexample: neither generator validates `scale`.  With
`scale = 0`, `toroidal_noise` returns an ordinary value (`some 0` for the
zero primitive) instead of raising a configuration error, and with
`scale = -1`, `generate_tileable_noise` returns an ordinary field value. -/
theorem C4_counterexample :
    toroidal_noise zeroNoise2 0 0 4 0 1 (1 / 2) 2 = some 0 ∧
    generate_tileable_noise oneNoise4 (-1) 1 0 0 = 1 := by
  constructor
  · rw [toroidal_noise_closed]
    simp [zeroNoise2, toroidal_sample, Finset.sum_range_one]
  · simp [generate_tileable_noise, oneNoise4, Finset.sum_range_one]

/-- Claim C4 as amended: no validation of `scale` (or of any other
parameter) is performed.  For any `scale <= 0`, `toroidal_noise` with at
least one octave and nonnegative persistence still returns a value, and
`generate_tileable_noise` still computes its ordinary octave sum. -/
theorem C4_no_validation (pnoise2 : ℝ → ℝ → ℝ → ℝ → ℤ → ℝ)
    (noise_gen : ℝ → ℝ → ℝ → ℝ → ℝ)
    (x y size scale persistence lacunarity s : ℝ) (a b : ℤ) (O : ℕ)
    (_hscale : scale ≤ 0) (_hs : s ≤ 0) (hO : 1 ≤ O)
    (hp : 0 ≤ persistence) :
    (toroidal_noise pnoise2 x y size scale O persistence
      lacunarity).isSome = true ∧
    generate_tileable_noise noise_gen s O a b =
      ∑ o in Finset.range O,
        generate_tileable_noise noise_gen (s * 2 ^ o) 1 a b *
          (1 / 2 : ℝ) ^ o := by
  constructor
  · have h1 : 1 ≤ ∑ i in Finset.range O, persistence ^ i :=
      one_le_amp_sum hp hO
    rw [toroidal_noise_closed,
      if_neg (ne_of_gt (lt_of_lt_of_le one_pos h1))]
    rfl
  · exact generate_tileable_layers noise_gen s O a b

/-- Concrete instance of C4 as amended, at `scale = 0` and `s = -1`. -/
theorem C4_no_validation_witness :
    ((0 : ℝ) ≤ 0 ∧ (-1 : ℝ) ≤ 0 ∧ 1 ≤ 2 ∧ (0 : ℝ) ≤ 1 / 2) ∧
    ((toroidal_noise zeroNoise2 1 2 4 0 2 (1 / 2) 2).isSome = true ∧
     generate_tileable_noise oneNoise4 (-1) 2 5 6 =
      ∑ o in Finset.range 2,
        generate_tileable_noise oneNoise4 ((-1) * 2 ^ o) 1 5 6 *
          (1 / 2 : ℝ) ^ o) :=
  ⟨⟨by norm_num, by norm_num, by norm_num, by norm_num⟩,
    C4_no_validation zeroNoise2 oneNoise4 1 2 4 0 (1 / 2) 2 (-1) 5 6 2
      (by norm_num) (by norm_num) (by norm_num) (by norm_num)⟩

/-- Claim C7: persistence `0` makes every octave after the first
contribute nothing: the `n`-octave field equals the single-octave field,
and the call still returns a value (the amplitude sum is `1`, so the final
division is defined). -/
theorem C7_persistence_zero (pnoise2 : ℝ → ℝ → ℝ → ℝ → ℤ → ℝ)
    (x y size scale lacunarity : ℝ) (n : ℕ) (hn : 1 ≤ n) :
    toroidal_noise pnoise2 x y size scale n 0 lacunarity =
      toroidal_noise pnoise2 x y size scale 1 0 lacunarity ∧
    (toroidal_noise pnoise2 x y size scale n 0 lacunarity).isSome =
      true := by
  have hsum : ∑ i in Finset.range n, (0 : ℝ) ^ i = 1 := by
    rw [Finset.sum_eq_single_of_mem 0 (Finset.mem_range.mpr hn)
      (fun i _ hi => by simp [zero_pow hi])]
    exact pow_zero 0
  have hval : ∑ i in Finset.range n,
      toroidal_sample pnoise2 x y size 0 lacunarity
        (scale * lacunarity ^ i) * (0 : ℝ) ^ i =
      toroidal_sample pnoise2 x y size 0 lacunarity
        (scale * lacunarity ^ 0) * (0 : ℝ) ^ 0 :=
    Finset.sum_eq_single_of_mem 0 (Finset.mem_range.mpr hn)
      (fun i _ hi => by simp [zero_pow hi])
  constructor
  · rw [toroidal_noise_closed, toroidal_noise_closed, hsum, hval]
    simp [Finset.sum_range_one]
  · rw [toroidal_noise_closed, hsum, hval]
    norm_num

/-- Concrete instance of C7 with three octaves. -/
theorem C7_persistence_zero_witness :
    1 ≤ 3 ∧
    (toroidal_noise zeroNoise2 1 2 4 2 3 0 2 =
      toroidal_noise zeroNoise2 1 2 4 2 1 0 2 ∧
     (toroidal_noise zeroNoise2 1 2 4 2 3 0 2).isSome = true) :=
  ⟨by norm_num, C7_persistence_zero zeroNoise2 1 2 4 2 2 3 (by norm_num)⟩

/-- Claim C10 (implicit): with at least one octave and nonnegative
persistence, the accumulated `max_value` of the octave loop is at least
`1`, hence nonzero, so the final `value / max_value` of `toroidal_noise`
cannot divide by zero and the function returns a value. -/
theorem C10_div_safe (pnoise2 : ℝ → ℝ → ℝ → ℝ → ℤ → ℝ)
    (x y size scale persistence lacunarity : ℝ) (O : ℕ)
    (hO : 1 ≤ O) (hp : 0 ≤ persistence) :
    1 ≤ (octaveState
        (toroidal_sample pnoise2 x y size persistence lacunarity)
        persistence lacunarity scale O).2.2.2 ∧
    (toroidal_noise pnoise2 x y size scale O persistence
      lacunarity).isSome = true := by
  have h1 : 1 ≤ ∑ i in Finset.range O, persistence ^ i :=
    one_le_amp_sum hp hO
  constructor
  · rw [octaveState_eq]
    exact h1
  · rw [toroidal_noise_closed,
      if_neg (ne_of_gt (lt_of_lt_of_le one_pos h1))]
    rfl

/-- Concrete instance of C10 with two octaves and persistence `1/2`. -/
theorem C10_div_safe_witness :
    (1 ≤ 2 ∧ (0 : ℝ) ≤ 1 / 2) ∧
    (1 ≤ (octaveState (toroidal_sample zeroNoise2 1 2 3 (1 / 2) 2)
        (1 / 2) 2 4 2).2.2.2 ∧
     (toroidal_noise zeroNoise2 1 2 3 4 2 (1 / 2) 2).isSome = true) :=
  ⟨⟨by norm_num, by norm_num⟩,
    C10_div_safe zeroNoise2 1 2 3 4 (1 / 2) 2 2 (by norm_num)
      (by norm_num)⟩

/-- The single-octave tileable field is the primitive evaluated at the
four torus coordinates times `scale` (frequency and amplitude are `1`). -/
lemma tileable_one_eq (noise_gen : ℝ → ℝ → ℝ → ℝ → ℝ) (scale : ℝ)
    (x y : ℤ) :
    generate_tileable_noise noise_gen scale 1 x y =
      noise_gen (Real.cos ((x : ℝ) / SIZE * 2 * Real.pi) * scale)
        (Real.sin ((x : ℝ) / SIZE * 2 * Real.pi) * scale)
        (Real.cos ((y : ℝ) / SIZE * 2 * Real.pi) * scale)
        (Real.sin ((y : ℝ) / SIZE * 2 * Real.pi) * scale) := by
  simp [generate_tileable_noise, Finset.sum_range_one]

lemma rampGrid_min_lt_max : gridMin rampGrid < gridMax rampGrid := by
  have h0 : ((0 : ℕ), (0 : ℕ)) ∈ gridIdx := by
    rw [mem_gridIdx]
    norm_num [SIZE]
  have h1 : ((1 : ℕ), (0 : ℕ)) ∈ gridIdx := by
    rw [mem_gridIdx]
    norm_num [SIZE]
  have ha : gridMin rampGrid ≤ rampGrid 0 0 := gridMin_le rampGrid h0
  have hb : rampGrid 1 0 ≤ gridMax rampGrid := le_gridMax rampGrid h1
  have e0 : rampGrid 0 0 = 0 := by norm_num [rampGrid]
  have e1 : rampGrid 1 0 = 1 := by norm_num [rampGrid]
  rw [e0] at ha
  rw [e1] at hb
  linarith

lemma zeroNoise4_bounded : boundedNoise zeroNoise4 :=
  fun _ _ _ _ => ⟨by norm_num [zeroNoise4], by norm_num [zeroNoise4]⟩

/-- Claim C2 counterexample: the snow_dirt normalization
`(noise + 1) / 2` can leave `[0, 1]` on a multi-octave field even when the
noise primitive is bounded in `[-1, 1]`: with the constant-one primitive
and the snow layer configuration (`scale = 0.03`, `octaves = 2`) the
undivided octave sum is `3/2`, so the normalized cell value is
`5/4 > 1`. -/
theorem C2_counterexample :
    boundedNoise oneNoise4 ∧
    1 < (generate_tileable_noise oneNoise4 (3 / 100) 2 0 0 + 1) / 2 := by
  constructor
  · intro a b c d
    exact ⟨by norm_num [oneNoise4], by norm_num [oneNoise4]⟩
  · simp [generate_tileable_noise, oneNoise4, Finset.sum_range_succ]
    norm_num

/-- Claim C2 as amended: the dark_sky min/max rescaling
`(g - g.min()) / (g.max() - g.min())` maps every cell of a non-constant
grid into `[0, 1]`; the snow_dirt map `(noise + 1) / 2` lands in `[0, 1]` for a
single octave when the primitive is bounded in `[-1, 1]` (for two or more
octaves the unnormalized amplitude sum exceeds `1` and the bound can
fail, see the counterexample). -/
theorem C2_range (g : ℕ → ℕ → ℝ) (noise_gen : ℝ → ℝ → ℝ → ℝ → ℝ)
    (scale : ℝ) (x y : ℤ) (a b : ℕ)
    (hg : gridMin g < gridMax g) (hb : boundedNoise noise_gen)
    (ha : a < SIZE) (hbb : b < SIZE) :
    (0 ≤ rescaleGrid g a b ∧ rescaleGrid g a b ≤ 1) ∧
    (0 ≤ (generate_tileable_noise noise_gen scale 1 x y + 1) / 2 ∧
      (generate_tileable_noise noise_gen scale 1 x y + 1) / 2 ≤ 1) := by
  have hmem : (a, b) ∈ gridIdx := by
    rw [mem_gridIdx]
    exact ⟨ha, hbb⟩
  have hlow : gridMin g ≤ g a b := gridMin_le g hmem
  have hhigh : g a b ≤ gridMax g := le_gridMax g hmem
  have hv : -1 ≤ generate_tileable_noise noise_gen scale 1 x y ∧
      generate_tileable_noise noise_gen scale 1 x y ≤ 1 := by
    rw [tileable_one_eq]
    exact hb _ _ _ _
  refine ⟨⟨?_, ?_⟩, ?_, ?_⟩
  · exact div_nonneg (by linarith) (by linarith)
  · rw [rescaleGrid, div_le_one (by linarith)]
    linarith
  · have := hv.1
    linarith [div_nonneg (by linarith :
      (0 : ℝ) ≤ generate_tileable_noise noise_gen scale 1 x y + 1)
      (by norm_num : (0 : ℝ) ≤ 2)]
  · rw [div_le_one (by norm_num)]
    linarith [hv.2]

/-- Concrete instance of C2 as amended: the ramp grid and the zero
primitive. -/
theorem C2_range_witness :
    (gridMin rampGrid < gridMax rampGrid ∧ boundedNoise zeroNoise4 ∧
      0 < SIZE ∧ 0 < SIZE) ∧
    ((0 ≤ rescaleGrid rampGrid 0 0 ∧ rescaleGrid rampGrid 0 0 ≤ 1) ∧
     (0 ≤ (generate_tileable_noise zeroNoise4 1 1 0 0 + 1) / 2 ∧
      (generate_tileable_noise zeroNoise4 1 1 0 0 + 1) / 2 ≤ 1)) :=
  ⟨⟨rampGrid_min_lt_max, zeroNoise4_bounded, by norm_num [SIZE],
      by norm_num [SIZE]⟩,
    C2_range rampGrid zeroNoise4 1 0 0 0 0 rampGrid_min_lt_max
      zeroNoise4_bounded (by norm_num [SIZE]) (by norm_num [SIZE])⟩

/-- Claim C6 counterexample: `generate_tileable_noise` does not divide by
the accumulated max amplitude.  With the constant-one primitive and two
octaves the cell value is the bare sum `3/2`, while the claimed formula
(octave layers weighted by `(1/2)^o`, divided by the amplitude sum) gives
`1`. -/
theorem C6_counterexample :
    generate_tileable_noise oneNoise4 1 2 0 0 = 3 / 2 ∧
    (∑ o in Finset.range 2,
        generate_tileable_noise oneNoise4 (1 * 2 ^ o) 1 0 0 *
          (1 / 2 : ℝ) ^ o) /
      (∑ o in Finset.range 2, (1 / 2 : ℝ) ^ o) = 1 ∧
    (3 / 2 : ℝ) ≠ 1 := by
  refine ⟨?_, ?_, by norm_num⟩
  · simp [generate_tileable_noise, oneNoise4, Finset.sum_range_succ]
    norm_num
  · simp [generate_tileable_noise, oneNoise4, Finset.sum_range_succ]
    norm_num

/-- Claim C6 as amended: `toroidal_noise` matches the specified octave-stack
formula exactly (weighted sample sum divided by the amplitude sum), while
`generate_tileable_noise` matches only the undivided sum of its octave
layers with hard-coded persistence `1/2` and lacunarity `2` — the final
division by the accumulated max amplitude is absent from it. -/
theorem C6_octave_formula (pnoise2 : ℝ → ℝ → ℝ → ℝ → ℤ → ℝ)
    (noise_gen : ℝ → ℝ → ℝ → ℝ → ℝ)
    (x y size scale persistence lacunarity s : ℝ) (a b : ℤ) (O : ℕ)
    (hO : 1 ≤ O) (hp : 0 ≤ persistence) :
    toroidal_noise pnoise2 x y size scale O persistence lacunarity =
      some ((∑ i in Finset.range O,
          toroidal_sample pnoise2 x y size persistence lacunarity
            (scale * lacunarity ^ i) * persistence ^ i) /
        ∑ i in Finset.range O, persistence ^ i) ∧
    generate_tileable_noise noise_gen s O a b =
      ∑ o in Finset.range O,
        generate_tileable_noise noise_gen (s * 2 ^ o) 1 a b *
          (1 / 2 : ℝ) ^ o := by
  constructor
  · have h1 : 1 ≤ ∑ i in Finset.range O, persistence ^ i :=
      one_le_amp_sum hp hO
    rw [toroidal_noise_closed,
      if_neg (ne_of_gt (lt_of_lt_of_le one_pos h1))]
  · exact generate_tileable_layers noise_gen s O a b

/-- Concrete instance of C6 as amended with two octaves. -/
theorem C6_octave_formula_witness :
    (1 ≤ 2 ∧ (0 : ℝ) ≤ 1 / 2) ∧
    (toroidal_noise zeroNoise2 1 2 3 4 2 (1 / 2) 2 =
      some ((∑ i in Finset.range 2,
          toroidal_sample zeroNoise2 1 2 3 (1 / 2) 2 (4 * 2 ^ i) *
            (1 / 2 : ℝ) ^ i) /
        ∑ i in Finset.range 2, (1 / 2 : ℝ) ^ i) ∧
     generate_tileable_noise oneNoise4 1 2 5 6 =
      ∑ o in Finset.range 2,
        generate_tileable_noise oneNoise4 (1 * 2 ^ o) 1 5 6 *
          (1 / 2 : ℝ) ^ o) :=
  ⟨⟨by norm_num, by norm_num⟩,
    C6_octave_formula zeroNoise2 oneNoise4 1 2 3 4 (1 / 2) 2 1 5 6 2
      (by norm_num) (by norm_num)⟩

/-- Claim C9 (implicit): `generate_tileable_noise` decomposes additively
over octaves with hard-coded persistence `1/2` and lacunarity `2`: the
`(n+1)`-octave field is the `n`-octave field plus `2 ^ (-n)` times the
single-octave layer at scale `s * 2 ^ n`, and each cell is the sum of the
weighted layers. -/
theorem C9_decompose (noise_gen : ℝ → ℝ → ℝ → ℝ → ℝ) (s : ℝ)
    (x y : ℤ) (n : ℕ) :
    generate_tileable_noise noise_gen s (n + 1) x y =
      generate_tileable_noise noise_gen s n x y +
        generate_tileable_noise noise_gen (s * 2 ^ n) 1 x y *
          (1 / 2 : ℝ) ^ n ∧
    generate_tileable_noise noise_gen s n x y =
      ∑ o in Finset.range n,
        generate_tileable_noise noise_gen (s * 2 ^ o) 1 x y *
          (1 / 2 : ℝ) ^ o := by
  refine ⟨?_, generate_tileable_layers noise_gen s n x y⟩
  rw [generate_tileable_layers noise_gen s (n + 1) x y,
    generate_tileable_layers noise_gen s n x y, Finset.sum_range_succ]

end BackroomsNoise
